import Mathlib

/-!
Verification development for the claude-code-tracer proxy.

The repository intercepts chat-completion API calls, forwards them upstream,
persists a trace (sessions / requests / responses / tool_calls) in SQLite and
broadcasts structured events to WebSocket observers.  The spec follows the
defensive variant of the proxy (the one that stores no request headers and
computes total tokens on completion), so the embedding below is translated
from that implementation.

JavaScript's dynamic values are modelled by `JSVal`; JS numbers are modelled
by `JSNum`: exact rationals (every finite double is a rational) plus NaN
and the infinities.  The rounding of double arithmetic is outside the
model; it plays no role in the token-accounting code, whose payload fields
are integral.
-/

/-- Model of a JavaScript number: a finite value, NaN, or one of the two
infinities.  Every finite double is a rational number and is represented
exactly; the rounding of double arithmetic is outside the model (and
immaterial for this protocol's token payloads, which are integral). -/
inductive JSNum where
  | finite (v : Rat)
  | nan
  | posInf
  | negInf
deriving DecidableEq, Repr

/-- Model of a JavaScript value as it appears in the proxy's dynamic
payloads: undefined, null, booleans, numbers, strings, arrays and objects
(ordered field lists, as produced by JSON parsing). -/
inductive JSVal where
  | undef
  | null
  | bool (b : Bool)
  | num (n : JSNum)
  | str (s : String)
  | arr (elems : List JSVal)
  | obj (fields : List (String × JSVal))
deriving Repr

/-- JS truthiness: `undefined`, `null`, `false`, `0`, `NaN` and `""` are
falsy; every object and array (even empty) is truthy. -/
def JSVal.truthy : JSVal → Bool
  | .undef => false
  | .null => false
  | .bool b => b
  | .num (.finite v) => v != 0
  | .num .nan => false
  | .num _ => true
  | .str s => s != ""
  | .arr _ => true
  | .obj _ => true

/-- Test for `typeof v === "object"`: true for `null`, arrays and objects. -/
def JSVal.isObjectType : JSVal → Bool
  | .null => true
  | .arr _ => true
  | .obj _ => true
  | _ => false

/-- Property access `v[k]` for the named properties used by the tracer:
yields the first binding of `k` on an object, `undefined` otherwise
(including on primitives, where JS property access also yields
`undefined` for these names). -/
def JSVal.getField : JSVal → String → JSVal
  | .obj fields, k =>
    match fields.find? (fun p => p.1 == k) with
    | some p => p.2
    | none => .undef
  | _, _ => (.undef)

/-- JS addition restricted to numbers (as used on token counts):
NaN is absorbing, opposite infinities give NaN, finite values add. -/
def jsAdd : JSNum → JSNum → JSNum
  | .nan, _ => .nan
  | _, .nan => .nan
  | .posInf, .negInf => .nan
  | .negInf, .posInf => .nan
  | .posInf, _ => .posInf
  | _, .posInf => .posInf
  | .negInf, _ => .negInf
  | _, .negInf => .negInf
  | .finite a, .finite b => .finite (a + b)

/-- The tracer's `calculateTokens(usage)`: returns 0 unless `usage` is a
truthy value of object type; returns `usage.total_tokens` when that field
is a finite number; otherwise sums `input_tokens` and `output_tokens`,
each taken as 0 unless of number type. -/
def calculateTokens (usage : JSVal) : JSNum :=
  if !(usage.truthy && usage.isObjectType) then .finite 0
  else
    match usage.getField "total_tokens" with
    | .num (.finite v) => .finite v
    | _ =>
      let input : JSNum :=
        match usage.getField "input_tokens" with
        | .num n => n
        | _ => .finite 0
      let output : JSNum :=
        match usage.getField "output_tokens" with
        | .num n => n
        | _ => .finite 0
      jsAdd input output

/-! ### Text model

The handlers operate on JavaScript strings; the model works on their
character lists so that every operation is structurally recursive and
computable by the kernel.  Only ASCII whitespace is modelled, which covers
the wire format of this protocol. -/

/-- Whitespace recognised by the trimming model (ASCII fragment of the JS
whitespace class). -/
def isWsChar (c : Char) : Bool :=
  c == ' ' || c == '\t' || c == '\n' || c == '\r'

/-- Model of JS `String.prototype.trim` on character lists. -/
def trimList (cs : List Char) : List Char :=
  ((cs.dropWhile isWsChar).reverse.dropWhile isWsChar).reverse

/-- Auxiliary for `splitOnList`.  The fuel bounds the recursion and is at
least the length of the text plus one; as every step consumes at least one
character (the separator is nonempty), the fuel never runs out. -/
def splitOnAux (sep : List Char) : Nat → List Char → List Char → List (List Char)
  | 0, _, acc => [acc.reverse]
  | _ + 1, [], acc => [acc.reverse]
  | fuel + 1, c :: rest, acc =>
    if List.isPrefixOf sep (c :: rest) then
      acc.reverse :: splitOnAux sep fuel ((c :: rest).drop sep.length) []
    else
      splitOnAux sep fuel rest (c :: acc)

/-- Model of JS `String.prototype.split` with a nonempty separator:
leftmost, non-overlapping matches; a trailing separator yields a trailing
empty piece, and splitting the empty string yields one empty piece. -/
def splitOnList (sep : List Char) (cs : List Char) : List (List Char) :=
  splitOnAux sep (cs.length + 1) cs []

/-! ### JSON model

`jsonParseChars` models `JSON.parse` and `jsonStringify` models
`JSON.stringify`, on the integer-numeric fragment of JSON (every numeric
field of this protocol — token counts, temperatures aside — is integral;
fractional or exponent parts make the modelled parse fail).  A `none`
result of the parser models a thrown `SyntaxError`. -/

/-- Skips JSON whitespace. -/
def skipWs : List Char → List Char
  | c :: cs =>
    if c == ' ' || c == '\t' || c == '\n' || c == '\r' then skipWs cs else c :: cs
  | [] => []

/-- Value of a hexadecimal digit, by code point: digits, then the lower
and upper case letter ranges. -/
def hexVal (c : Char) : Option Nat :=
  let n := c.toNat
  if 48 ≤ n && n ≤ 57 then some (n - 48)
  else if 97 ≤ n && n ≤ 102 then some (n - 87)
  else if 65 ≤ n && n ≤ 70 then some (n - 55)
  else none

/-- Replacement for a single-character JSON string escape. -/
def escRepl : Char → Option Char
  | '"' => some '"'
  | '\\' => some '\\'
  | '/' => some '/'
  | 'b' => some (Char.ofNat 8)
  | 'f' => some (Char.ofNat 12)
  | 'n' => some '\n'
  | 'r' => some '\r'
  | 't' => some '\t'
  | _ => none

/-- Parses the body of a JSON string after the opening quote, returning the
decoded characters and the remainder after the closing quote.  Raw control
characters are rejected, as in JSON. -/
def parseStringBody : List Char → Option (List Char × List Char)
  | [] => none
  | '"' :: cs => some ([], cs)
  | '\\' :: 'u' :: h1 :: h2 :: h3 :: h4 :: cs =>
    match hexVal h1, hexVal h2, hexVal h3, hexVal h4 with
    | some a, some b, some c, some d =>
      (parseStringBody cs).map
        (fun r => (Char.ofNat (((a * 16 + b) * 16 + c) * 16 + d) :: r.1, r.2))
    | _, _, _, _ => none
  | '\\' :: e :: cs =>
    match escRepl e with
    | some c => (parseStringBody cs).map (fun r => (c :: r.1, r.2))
    | none => none
  | c :: cs =>
    if c.toNat < 32 then none
    else (parseStringBody cs).map (fun r => (c :: r.1, r.2))

/-- Takes the leading run of decimal digits. -/
def takeDigits : List Char → List Char × List Char
  | [] => ([], [])
  | c :: cs =>
    if c.isDigit then
      let r := takeDigits cs
      (c :: r.1, r.2)
    else ([], c :: cs)

/-- Numeric value of a digit run. -/
def digitsToNat (ds : List Char) : Nat :=
  ds.foldl (fun acc c => acc * 10 + (c.toNat - 48)) 0

/-- Parses an unsigned JSON integer token: one or more digits, no redundant
leading zero, and no fractional or exponent part (outside the model). -/
def parseNumberNat (cs : List Char) : Option (Nat × List Char) :=
  match takeDigits cs with
  | ([], _) => none
  | (ds, rest) =>
    if decide (1 < ds.length) && ds.head? == some '0' then none
    else if rest.head? == some '.' || rest.head? == some 'e' || rest.head? == some 'E' then
      none
    else some (digitsToNat ds, rest)

/-- Parses a JSON number token (integer fragment, with optional sign). -/
def parseNumber : List Char → Option (JSVal × List Char)
  | '-' :: cs =>
    match parseNumberNat cs with
    | some (n, rest) => some (.num (.finite (-(n : Rat))), rest)
    | none => none
  | cs =>
    match parseNumberNat cs with
    | some (n, rest) => some (.num (.finite (n : Rat)), rest)
    | none => none

mutual

/-- Fuel-indexed JSON value parser.  Every recursive call is made after at
least one character of input has been consumed per two units of fuel spent,
so the fuel chosen by `jsonParseChars` (twice the length plus two) never
runs out on inputs it accepts. -/
def parseValue : Nat → List Char → Option (JSVal × List Char)
  | 0, _ => none
  | fuel + 1, cs =>
    match skipWs cs with
    | [] => none
    | '"' :: rest => (parseStringBody rest).map (fun r => (.str (String.mk r.1), r.2))
    | '{' :: rest =>
      match skipWs rest with
      | '}' :: rest2 => some (.obj [], rest2)
      | rest2 => (parseMembers fuel rest2).map (fun r => (.obj r.1, r.2))
    | '[' :: rest =>
      match skipWs rest with
      | ']' :: rest2 => some (.arr [], rest2)
      | rest2 => (parseElements fuel rest2).map (fun r => (.arr r.1, r.2))
    | c :: rest =>
      if List.isPrefixOf ['n', 'u', 'l', 'l'] (c :: rest) then
        some (.null, (c :: rest).drop 4)
      else if List.isPrefixOf ['t', 'r', 'u', 'e'] (c :: rest) then
        some (.bool true, (c :: rest).drop 4)
      else if List.isPrefixOf ['f', 'a', 'l', 's', 'e'] (c :: rest) then
        some (.bool false, (c :: rest).drop 5)
      else parseNumber (c :: rest)

/-- Parses the members of a JSON object after the opening brace (nonempty
case), up to and including the closing brace. -/
def parseMembers : Nat → List Char → Option (List (String × JSVal) × List Char)
  | 0, _ => none
  | fuel + 1, cs =>
    match skipWs cs with
    | '"' :: rest =>
      match parseStringBody rest with
      | none => none
      | some (key, rest2) =>
        match skipWs rest2 with
        | ':' :: rest3 =>
          match parseValue fuel rest3 with
          | none => none
          | some (v, rest4) =>
            match skipWs rest4 with
            | ',' :: rest5 =>
              (parseMembers fuel rest5).map (fun r => ((String.mk key, v) :: r.1, r.2))
            | '}' :: rest5 => some ([(String.mk key, v)], rest5)
            | _ => none
        | _ => none
    | _ => none

/-- Parses the elements of a JSON array after the opening bracket (nonempty
case), up to and including the closing bracket. -/
def parseElements : Nat → List Char → Option (List JSVal × List Char)
  | 0, _ => none
  | fuel + 1, cs =>
    match parseValue fuel cs with
    | none => none
    | some (v, rest) =>
      match skipWs rest with
      | ',' :: rest2 => (parseElements fuel rest2).map (fun r => (v :: r.1, r.2))
      | ']' :: rest2 => some ([v], rest2)
      | _ => none

end

/-- Model of `JSON.parse`: one JSON value followed by nothing but
whitespace; `none` models a thrown `SyntaxError`. -/
def jsonParseChars (cs : List Char) : Option JSVal :=
  match parseValue (2 * cs.length + 2) cs with
  | some (v, rest) => if (skipWs rest).isEmpty then some v else none
  | none => none

/-- Hexadecimal digit for serialisation. -/
def hexDigit (n : Nat) : Char :=
  if n < 10 then Char.ofNat (48 + n) else Char.ofNat (97 + n - 10)

/-- JSON escaping of one character, as `JSON.stringify` performs it. -/
def quoteJsonChar (c : Char) : List Char :=
  if c == '"' then ['\\', '"']
  else if c == '\\' then ['\\', '\\']
  else if c == '\n' then ['\\', 'n']
  else if c == '\r' then ['\\', 'r']
  else if c == '\t' then ['\\', 't']
  else if c.toNat == 8 then ['\\', 'b']
  else if c.toNat == 12 then ['\\', 'f']
  else if c.toNat < 32 then
    ['\\', 'u', '0', '0', hexDigit (c.toNat / 16), hexDigit (c.toNat % 16)]
  else [c]

/-- JSON quoting of a string. -/
def quoteJson (s : String) : String :=
  String.mk ('"' :: (s.data.map quoteJsonChar).flatten ++ ['"'])

mutual

/-- Model of `JSON.stringify`: `none` models the JS result `undefined`
(only for `undefined` input); NaN and the infinities serialise as `null`;
object fields keep insertion order and fields holding `undefined` are
dropped, as in JS.  Integer-valued numbers render as their decimal digits,
like in JS; the rendering of fractional values uses rational notation, a
model boundary no payload of this protocol reaches. -/
def jsonStringify : JSVal → Option String
  | .undef => none
  | .null => some "null"
  | .bool true => some "true"
  | .bool false => some "false"
  | .num (.finite v) => some (toString v)
  | .num _ => some "null"
  | .str s => some (quoteJson s)
  | .arr es => some ("[" ++ String.intercalate "," (stringifyElements es) ++ "]")
  | .obj fs => some ("\x7b" ++ String.intercalate "," (stringifyFields fs) ++ "\x7d")

/-- Serialises array elements; an `undefined` element serialises as
`null`, as in JS. -/
def stringifyElements : List JSVal → List String
  | [] => []
  | v :: vs => ((jsonStringify v).getD "null") :: stringifyElements vs

/-- Serialises object fields, dropping fields holding `undefined`. -/
def stringifyFields : List (String × JSVal) → List String
  | [] => []
  | (k, v) :: fs =>
    match jsonStringify v with
    | some s => (quoteJson k ++ ":" ++ s) :: stringifyFields fs
    | none => stringifyFields fs

end

/-- Serialised form of a value as handed to the storage layer: a JS string,
or `undefined` when `JSON.stringify` yields `undefined`. -/
def stringifyVal (v : JSVal) : JSVal :=
  match jsonStringify v with
  | some s => .str s
  | none => (.undef)

/-! ### SSE Reassembler

Translated from `parseStreamingResponse` and `extractUsageFromSSE` of the
proxy: the first recovers a best-effort structured final object from the
accumulated stream text, the second scans the stream's records for a usage
object carried by a `message_delta` record (at `usage`) or a
`message_start` record (at `message.usage`). -/

/-- JS logical-or `a || b`: `a` when truthy, else `b`. -/
def jsOr (a b : JSVal) : JSVal := if a.truthy then a else b

/-- Does the trimmed line start with an opening brace? -/
def startsWithBrace : List Char → Bool
  | c :: _ => c == '{'
  | [] => false

/-- Does the trimmed line end with a closing brace? -/
def endsWithBrace (l : List Char) : Bool :=
  match l.getLast? with
  | some c => c == '}'
  | none => false

/-- The candidate line of `parseStreamingResponse`: among the trimmed
nonempty lines, the last one that starts with an opening brace and ends
with a closing brace. -/
def lastBraceLine (fullResponse : String) : Option (List Char) :=
  let lines := ((splitOnList ['\n'] fullResponse.data).map trimList).filter
    (fun l => !l.isEmpty)
  lines.reverse.find? (fun l => startsWithBrace l && endsWithBrace l)

/-- The tracer's `parseStreamingResponse`: splits the accumulated stream
text into lines, trims them, drops empty ones, picks the last line
delimited by braces and attempts to parse it as JSON; any failure yields
`null` (the surrounding try/catch swallows parse errors). -/
def parseStreamingResponse (fullResponse : String) : JSVal :=
  match lastBraceLine fullResponse with
  | some l =>
    match jsonParseChars l with
    | some v => v
    | none => .null
  | none => .null

/-- Scans the lines of one SSE record, accumulating the last `event:` name
and all `data:` payload parts, each trimmed, as the tracer's inner loop in
`extractUsageFromSSE` does. -/
def scanRecordLines :
    List (List Char) → Option (List Char) → List (List Char) →
      Option (List Char) × List (List Char)
  | [], evt, dataParts => (evt, dataParts)
  | line :: rest, evt, dataParts =>
    let t := trimList line
    if t.isEmpty then scanRecordLines rest evt dataParts
    else if List.isPrefixOf "event:".data t then
      scanRecordLines rest (some (trimList (t.drop 6))) dataParts
    else if List.isPrefixOf "data:".data t then
      scanRecordLines rest evt (dataParts ++ [trimList (t.drop 5)])
    else scanRecordLines rest evt dataParts

/-- The usage object one SSE record contributes in `extractUsageFromSSE`:
for a `message_delta` record a truthy `usage` field of its parsed data, for
a `message_start` record a truthy `message.usage`, and nothing otherwise
(empty records, other event names, unparseable data, and records without a
truthy usage are all skipped). -/
def recordContribution (rec : List Char) : Option JSVal :=
  if rec.isEmpty then none
  else
    let scanned := scanRecordLines (splitOnList ['\n'] rec) none []
    let isDelta := scanned.1 == some "message_delta".data
    let isStart := scanned.1 == some "message_start".data
    if !isDelta && !isStart then none
    else
      let rawData := List.intercalate ['\n'] scanned.2
      match jsonParseChars rawData with
      | none => none
      | some parsed =>
        if isDelta then
          if parsed.truthy && parsed.isObjectType && (parsed.getField "usage").truthy then
            some (parsed.getField "usage")
          else none
        else
          let msg := parsed.getField "message"
          if parsed.truthy && parsed.isObjectType && msg.truthy && msg.isObjectType &&
              (msg.getField "usage").truthy then
            some (msg.getField "usage")
          else none

/-- Folds the records of the stream in order, keeping the most recent
contribution, exactly as the tracer's loop assigns to its `usage`
variable. -/
def extractUsageGo : List (List Char) → JSVal → JSVal
  | [], usage => usage
  | rec :: rest, usage =>
    match recordContribution rec with
    | some u => extractUsageGo rest u
    | none => extractUsageGo rest usage

/-- The tracer's `extractUsageFromSSE`: splits the accumulated text into
blank-line-separated records and scans them for usage, the last
usage-bearing record winning; `null` when none is found. -/
def extractUsageFromSSE (sse : String) : JSVal :=
  extractUsageGo (splitOnList ['\n', '\n'] sse.data) .null

/-! ### Reading traces back: safeParseJSON -/

/-- The tracer's `safeParseJSON` (defensive variant): falsy input reads as
`null`; non-strings are returned as-is; a string that after trimming looks
like an SSE payload is returned raw; otherwise the string is JSON-parsed,
and on parse failure the raw string is returned. -/
def safeParseJSON (maybeJSON : JSVal) : JSVal :=
  if !maybeJSON.truthy then .null
  else
    match maybeJSON with
    | .str s =>
      if List.isPrefixOf "event:".data (trimList s.data) then .str s
      else
        match jsonParseChars s.data with
        | some v => v
        | none => .str s
    | v => v

/-! ### Capture pipeline

Translated from the `/v1/messages` route and its two handlers
(`handleRegularRequest`, `handleStreamingRequest`) of the defensive proxy
variant.  Persistence failures are modelled by explicit flags: a failing
`INSERT` throws inside the corresponding try/catch of the source, so the
model drops the row and follows the catch branch.  Identifiers, timestamps
and the upstream outcome are parameters (they come from `uuidv4`,
`Date.now` and the network). -/

/-- A persisted row of the `requests` table. -/
structure RequestRow where
  id : String
  session_id : String
  timestamp : Int
  method : String
  endpoint : String
  headers : JSVal
  body : JSVal
  stream : Int
deriving Repr

/-- A persisted row of the `responses` table.  The streaming insert has no
headers column, leaving SQL NULL, modelled as `null`. -/
structure ResponseRow where
  id : String
  request_id : String
  timestamp : Int
  status : Int
  headers : JSVal
  body : JSVal
  latency : Int
  tokens_used : JSNum
deriving Repr

/-- A persisted row of the `tool_calls` table (its auto-increment key is
assigned by the storage engine and not modelled). -/
structure ToolRow where
  request_id : String
  tool_name : JSVal
  input : JSVal
  timestamp : Int
deriving Repr

/-- A broadcast message: its `type` tag and its `data` payload, exactly the
object handed to `broadcast` before serialisation. -/
structure Event where
  type : String
  data : JSVal
deriving Repr

/-- JS strict equality of a value with a string literal. -/
def JSVal.isStr (v : JSVal) (lit : String) : Bool :=
  match v with
  | .str s => s == lit
  | _ => false

/-- JS nullish coalescing `v ?? null` as used for a tool block's input. -/
def nullishToNull (v : JSVal) : JSVal :=
  match v with
  | .undef => .null
  | .null => .null
  | v => v

/-- One step of `extractAndStoreToolCalls`: walks the content blocks,
persisting a `tool_calls` row and broadcasting a `tool_call` event for each
block whose `type` is `"tool_use"`.  The counter `k` numbers the tool
blocks reached so far; `failIdx = some k` makes the insert of the k-th tool
block throw, which aborts the walk (the throw propagates to the caller's
catch), so later blocks produce neither rows nor events. -/
def toolCallsGo (requestId : String) (now : Int) (failIdx : Option Nat) :
    Nat → List JSVal → List ToolRow × List Event × Bool
  | _, [] => ([], [], false)
  | k, content :: rest =>
    if (content.getField "type").isStr "tool_use" then
      if failIdx == some k then ([], [], true)
      else
        let row : ToolRow :=
          ⟨requestId, content.getField "name",
            stringifyVal (nullishToNull (content.getField "input")), now⟩
        let ev : Event :=
          ⟨"tool_call",
            .obj [("requestId", .str requestId), ("toolName", content.getField "name"),
              ("input", content.getField "input")]⟩
        let r := toolCallsGo requestId now failIdx (k + 1) rest
        (row :: r.1, ev :: r.2.1, r.2.2)
    else toolCallsGo requestId now failIdx k rest

/-- The tracer's `extractAndStoreToolCalls`: nothing happens unless the
response's `content` is an array; otherwise the blocks are walked in
order.  Returns the persisted rows, the broadcast events and whether an
insert threw. -/
def extractAndStoreToolCalls (requestId : String) (responseData : JSVal)
    (failIdx : Option Nat) (now : Int) : List ToolRow × List Event × Bool :=
  match responseData.getField "content" with
  | .arr blocks => toolCallsGo requestId now failIdx 0 blocks
  | _ => ([], [], false)

/-- Outcome of the buffered handler: persisted rows, broadcast events in
order, and the reply sent to the caller. -/
structure RegularOutcome where
  responseRows : List ResponseRow
  toolRows : List ToolRow
  events : List Event
  clientStatus : Int
  clientBody : JSVal
deriving Repr

/-- The tracer's `handleRegularRequest` after the upstream call resolved
with `status` and JSON body `responseData`: persists one response row with
`tokens_used` computed by `calculateTokens` over the response's usage, then
extracts tool calls — all inside a try/catch, so a throwing insert
(`respInsertFails`, or `toolFailIdx` inside the walk) only truncates
persistence — then broadcasts the `response` event and replies to the
caller with upstream's status and body. -/
def handleRegularRequest (respInsertFails : Bool) (toolFailIdx : Option Nat)
    (status : Int) (responseData : JSVal) (requestId responseId : String)
    (respTimestamp latency : Int) : RegularOutcome :=
  let tokens := calculateTokens (responseData.getField "usage")
  let persisted :=
    if respInsertFails then ([], [], [])
    else
      let row : ResponseRow :=
        ⟨responseId, requestId, respTimestamp, status, .null,
          stringifyVal responseData, latency, tokens⟩
      let r := extractAndStoreToolCalls requestId responseData toolFailIdx respTimestamp
      ([row], r.1, r.2.1)
  let respEvent : Event :=
    ⟨"response",
      .obj [("requestId", .str requestId), ("response", responseData),
        ("latency", .num (.finite (latency : Rat))), ("tokensUsedTotal", .num tokens)]⟩
  ⟨persisted.1, persisted.2.1, persisted.2.2 ++ [respEvent], status, responseData⟩

/-- Outcome of the streaming handler: the persisted row, the broadcast
events, the chunks written through to the caller in order, and whether the
caller's stream was ended. -/
structure StreamingOutcome where
  responseRows : List ResponseRow
  events : List Event
  clientChunks : List String
  clientEnded : Bool
deriving Repr

/-- The tracer's `handleStreamingRequest` after upstream produced the given
chunks: each chunk is appended to the accumulation buffer and written to
the caller unmodified; on stream end the SSE Reassembler derives usage and
a structured final object, one response row is inserted (status 200, raw
accumulated text as body), and a `response` event is broadcast.  When the
insert throws (`respInsertFails`) the catch branch recomputes the
broadcast — with usage taken from the SSE scan alone — and the stream is
still ended. -/
def handleStreamingRequest (respInsertFails : Bool) (chunks : List String)
    (requestId responseId : String) (respTimestamp latency : Int) : StreamingOutcome :=
  let fullResponse := String.mk (chunks.map String.data).flatten
  if respInsertFails then
    let parsedFinal := parseStreamingResponse fullResponse
    let usage := extractUsageFromSSE fullResponse
    let ev : Event :=
      ⟨"response",
        .obj [("requestId", .str requestId),
          ("response", jsOr parsedFinal (.str fullResponse)),
          ("latency", .num (.finite (latency : Rat))),
          ("tokensUsedTotal", .num (calculateTokens usage))]⟩
    ⟨[], [ev], chunks, true⟩
  else
    let sseUsage := extractUsageFromSSE fullResponse
    let parsedFinal := parseStreamingResponse fullResponse
    let usage := jsOr (parsedFinal.getField "usage") sseUsage
    let tokensTotal := calculateTokens usage
    let row : ResponseRow :=
      ⟨responseId, requestId, respTimestamp, 200, .null, .str fullResponse,
        latency, tokensTotal⟩
    let ev : Event :=
      ⟨"response",
        .obj [("requestId", .str requestId),
          ("response", jsOr parsedFinal (.str fullResponse)),
          ("latency", .num (.finite (latency : Rat))),
          ("tokensUsedTotal", .num tokensTotal)]⟩
    ⟨[row], [ev], chunks, true⟩

/-- Looks up a header by name. -/
def headerLookup (headers : List (String × String)) (name : String) : Option String :=
  (headers.find? (fun p => p.1 == name)).map (·.2)

/-- The tracer's `buildAnthropicHeaders`: forwards the caller's API key and
protocol version, substituting the configured key and the default version
when absent (or empty, the JS check being truthiness). -/
def buildAnthropicHeaders (requestHeaders : List (String × String))
    (envApiKey : String) : List (String × String) :=
  let key := match headerLookup requestHeaders "x-api-key" with
    | some v => if v == "" then envApiKey else v
    | none => envApiKey
  let version := match headerLookup requestHeaders "anthropic-version" with
    | some v => if v == "" then "2023-06-01" else v
    | none => "2023-06-01"
  [("x-api-key", key), ("anthropic-version", version),
    ("content-type", "application/json")]

/-- Which trace-store writes fail during one captured call. -/
structure DbFailures where
  requestInsertFails : Bool
  responseInsertFails : Bool
  toolFailIdx : Option Nat
deriving Repr

/-- No persistence failure. -/
def DbFailures.none : DbFailures := ⟨false, false, Option.none⟩

/-- Everything one captured call produces: persisted rows, broadcast
events in order, the headers forwarded upstream, and the reply seen by the
caller (JSON reply for the buffered path, chunk passthrough for the
streaming path). -/
structure MessageOutcome where
  requestRows : List RequestRow
  responseRows : List ResponseRow
  toolRows : List ToolRow
  events : List Event
  forwardedHeaders : List (String × String)
  clientStatus : Int
  clientBody : JSVal
  clientChunks : List String
  clientEnded : Bool
deriving Repr

/-- The `request` event broadcast by the `/v1/messages` route: the
generated identifier, the capture timestamp, and fields taken from the
request body only. -/
def requestEvent (requestId : String) (timestamp : Int) (body : JSVal) : Event :=
  ⟨"request",
    .obj [("id", .str requestId), ("timestamp", .num (.finite (timestamp : Rat))),
      ("model", body.getField "model"), ("messages", body.getField "messages"),
      ("tools", body.getField "tools"), ("temperature", body.getField "temperature"),
      ("max_tokens", body.getField "max_tokens"), ("stream", body.getField "stream")]⟩

/-- The `/v1/messages` route of the defensive proxy variant: persists the
request row (with the headers column explicitly null) inside a try/catch,
broadcasts the `request` event built solely from the body, forwards the
call upstream with `buildAnthropicHeaders`, and branches on the body's
`stream` flag into the buffered or streaming handler. -/
def postMessages (fail : DbFailures) (reqHeaders : List (String × String))
    (body : JSVal) (upstreamStatus : Int) (upstreamJson : JSVal)
    (upstreamChunks : List String) (envApiKey requestId responseId sessionId : String)
    (timestamp respTimestamp latency : Int) : MessageOutcome :=
  let requestRows :=
    if fail.requestInsertFails then []
    else
      [⟨requestId, sessionId, timestamp, "POST", "/v1/messages", .null,
        stringifyVal body, if (body.getField "stream").truthy then 1 else 0⟩]
  let reqEvent : Event := requestEvent requestId timestamp body
  let fwd := buildAnthropicHeaders reqHeaders envApiKey
  if (body.getField "stream").truthy then
    let o := handleStreamingRequest fail.responseInsertFails upstreamChunks
      requestId responseId respTimestamp latency
    ⟨requestRows, o.responseRows, [], reqEvent :: o.events, fwd, 200, .undef,
      o.clientChunks, o.clientEnded⟩
  else
    let o := handleRegularRequest fail.responseInsertFails fail.toolFailIdx
      upstreamStatus upstreamJson requestId responseId respTimestamp latency
    ⟨requestRows, o.responseRows, o.toolRows, reqEvent :: o.events, fwd,
      o.clientStatus, o.clientBody, [], false⟩

/-! ### Trace store state, the clear operation and the traces query -/

/-- A persisted row of the `sessions` table (only the columns the proxy
ever writes; the rest stay at their defaults). -/
structure SessionRow where
  id : String
  started_at : Int
deriving Repr

/-- The four tables of the trace store. -/
structure DB where
  sessions : List SessionRow
  requests : List RequestRow
  responses : List ResponseRow
  tool_calls : List ToolRow
deriving Repr

/-- The statements executed by the `/api/clear` route, in order; a failure
is modelled by naming the step whose execution throws. -/
inductive ClearStep where
  | pragmaStep
  | beginStep
  | delToolCalls
  | delResponses
  | delRequests
  | delSessions
  | commitStep
  | sessionInsert
  | vacuumStep
deriving DecidableEq, Repr

/-- The steps lying inside the BEGIN/COMMIT transaction (or before it), for
which the catch branch's ROLLBACK leaves every pre-existing row in place. -/
def ClearStep.inDeletePhase : ClearStep → Bool
  | .pragmaStep => true
  | .beginStep => true
  | .delToolCalls => true
  | .delResponses => true
  | .delRequests => true
  | .delSessions => true
  | .commitStep => true
  | _ => false

/-- Result of the `/api/clear` route: the store afterwards, the HTTP status
and `ok` flag of the reply, the broadcast events, and the rotated active
session identifier (set by `createSession` on success). -/
structure ClearResult where
  db : DB
  httpStatus : Int
  bodyOk : Bool
  events : List Event
  currentSessionId : Option String
deriving Repr

/-- The tracer's `/api/clear` route: enables foreign keys, then inside one
BEGIN/COMMIT transaction deletes all rows of `tool_calls`, `responses`,
`requests` and `sessions`, then calls `createSession` (a fresh row becomes
the active session), tries a VACUUM whose failure is ignored, broadcasts a
`cleared` event and replies `ok`.  Any throw before or inside the
transaction reaches the catch branch, which issues a ROLLBACK — the
pending deletes are discarded and the store is as before — and replies
with status 500; a throw in `createSession` happens after the COMMIT, so
the deletes stay. -/
def clearHandler (db : DB) (failAt : Option ClearStep) (newSessionId : String)
    (now : Int) : ClearResult :=
  if failAt = some .pragmaStep then ⟨db, 500, false, [], none⟩
  else if failAt = some .beginStep then ⟨db, 500, false, [], none⟩
  else
    -- states pending inside the transaction, discarded unless COMMIT runs
    let p1 := { db with tool_calls := [] }
    let p2 := { p1 with responses := [] }
    let p3 := { p2 with requests := [] }
    let p4 := { p3 with sessions := [] }
    if failAt = some .delToolCalls then ⟨db, 500, false, [], none⟩
    else if failAt = some .delResponses then ⟨db, 500, false, [], none⟩
    else if failAt = some .delRequests then ⟨db, 500, false, [], none⟩
    else if failAt = some .delSessions then ⟨db, 500, false, [], none⟩
    else if failAt = some .commitStep then ⟨db, 500, false, [], none⟩
    else
      let committed := p4
      if failAt = some .sessionInsert then ⟨committed, 500, false, [], none⟩
      else
        let withSession := { committed with sessions := [⟨newSessionId, now⟩] }
        -- a VACUUM failure is swallowed by its own try/catch
        ⟨withSession, 200, true, [⟨"cleared", .undef⟩], some newSessionId⟩

/-- Insertion into a timestamp-descending list (model of `ORDER BY
timestamp DESC`). -/
def insertByTimestampDesc (r : RequestRow) : List RequestRow → List RequestRow
  | [] => [r]
  | x :: xs =>
    if x.timestamp ≤ r.timestamp then r :: x :: xs
    else x :: insertByTimestampDesc r xs

/-- Sorts request rows by timestamp, most recent first. -/
def sortByTimestampDesc (rows : List RequestRow) : List RequestRow :=
  rows.foldr insertByTimestampDesc []

/-- The `selectRecentRequests` prepared statement: most recent first,
capped at 100 rows. -/
def selectRecentRequests (db : DB) : List RequestRow :=
  (sortByTimestampDesc db.requests).take 100

/-- The `selectRequestsBySession` prepared statement. -/
def selectRequestsBySession (db : DB) (sessionId : String) : List RequestRow :=
  sortByTimestampDesc (db.requests.filter (fun r => r.session_id == sessionId))

/-- The request rows selected by the `/api/traces` route for an optional
session filter. -/
def selectTraces (db : DB) (sessionId : Option String) : List RequestRow :=
  match sessionId with
  | some sid => selectRequestsBySession db sid
  | none => selectRecentRequests db

/-- A response row as returned by the traces query, with its body read
through `safeParseJSON`. -/
structure TraceResponse where
  row : ResponseRow
  body : JSVal
deriving Repr

/-- One entry of the traces query: the request row joined with its parsed
body, the derived stream flag, its (at most one) response and its tool
calls. -/
structure FullTrace where
  row : RequestRow
  body : JSVal
  stream : Bool
  response : Option TraceResponse
  toolCalls : List ToolRow
deriving Repr

/-- JS strict equality with `true`. -/
def JSVal.isTrue (v : JSVal) : Bool :=
  match v with
  | .bool true => true
  | _ => false

/-- The tracer's `/api/traces/:sessionId?` route: selects the request rows
(filtered to a session, or the most recent 100), and joins each with the
first matching response row (its body also read through `safeParseJSON`)
and with all its tool-call rows; the returned body is the stored body read
through `safeParseJSON`, and the stream flag is the stored column or a
`stream: true` field of the parsed body. -/
def getTraces (db : DB) (sessionId : Option String) : List FullTrace :=
  (selectTraces db sessionId).map (fun trace =>
    let response := (db.responses.filter (fun r => r.request_id == trace.id)).head?
    let toolCalls := db.tool_calls.filter (fun t => t.request_id == trace.id)
    let parsedBody := safeParseJSON trace.body
    ⟨trace, parsedBody,
      trace.stream == 1 || (parsedBody.getField "stream").isTrue,
      response.map (fun r => ⟨r, safeParseJSON r.body⟩), toolCalls⟩)

/-! ### Notions used by the statements -/

/-- Is this value a finite number (number type and finite, the test
`typeof x === "number" && isFinite(x)` of the source)? -/
def JSVal.isFiniteNum : JSVal → Bool
  | .num (.finite _) => true
  | _ => false

/-- The per-field default of the token sum: a value of number type stands
for itself, anything else counts as 0. -/
def numOrZero : JSVal → JSNum
  | .num n => n
  | _ => .finite 0

/-! ### Theorems -/

lemma calculateTokens_not_object (u : JSVal)
    (h : (u.truthy && u.isObjectType) = false) : calculateTokens u = .finite 0 := by
  simp [calculateTokens, h]

lemma calculateTokens_sum (u : JSVal)
    (h : (u.truthy && u.isObjectType) = true)
    (h2 : (u.getField "total_tokens").isFiniteNum = false) :
    calculateTokens u =
      jsAdd (numOrZero (u.getField "input_tokens"))
        (numOrZero (u.getField "output_tokens")) := by
  unfold calculateTokens
  rw [h]
  cases hv : u.getField "total_tokens" with
  | num n =>
    cases n with
    | finite v => rw [hv] at h2; simp [JSVal.isFiniteNum] at h2
    | nan => simp [numOrZero]
    | posInf => simp [numOrZero]
    | negInf => simp [numOrZero]
  | undef => simp [numOrZero]
  | null => simp [numOrZero]
  | bool b => simp [numOrZero]
  | str s => simp [numOrZero]
  | arr l => simp [numOrZero]
  | obj f => simp [numOrZero]

/-- Claim C10: when `total_tokens` is present but not a finite number of
number type (NaN, an infinity, or a value of another type such as a
numeric string), it is ignored and the result is the JS sum of
`input_tokens` and `output_tokens`, each 0 when absent or not of number
type; and on every input — undefined, null, booleans, numbers, strings,
arrays — `calculateTokens` is defined (never throws) and returns a JS
number. -/
theorem calculateTokens_edge_cases :
    (∀ u : JSVal, (u.truthy && u.isObjectType) = true →
      u.getField "total_tokens" ≠ .undef →
      (u.getField "total_tokens").isFiniteNum = false →
      calculateTokens u =
        jsAdd (numOrZero (u.getField "input_tokens"))
          (numOrZero (u.getField "output_tokens"))) ∧
    calculateTokens .null = .finite 0 ∧
    (∀ l : List JSVal, calculateTokens (.arr l) = .finite 0) ∧
    (∀ b : Bool, calculateTokens (.bool b) = .finite 0) ∧
    (∀ n : JSNum, calculateTokens (.num n) = .finite 0) ∧
    (∀ s : String, calculateTokens (.str s) = .finite 0) ∧
    calculateTokens .undef = .finite 0 ∧
    calculateTokens (.obj [("total_tokens", .num .nan),
      ("input_tokens", .num (.finite 1)), ("output_tokens", .num (.finite 2))]) =
      .finite 3 ∧
    calculateTokens (.obj [("total_tokens", .num .posInf),
      ("input_tokens", .num (.finite 1)), ("output_tokens", .num (.finite 2))]) =
      .finite 3 ∧
    calculateTokens (.obj [("total_tokens", .str "42"),
      ("input_tokens", .num (.finite 1)), ("output_tokens", .num (.finite 2))]) =
      .finite 3 := by
  refine ⟨fun u h _ h2 => calculateTokens_sum u h h2, by decide, ?_, ?_, ?_, ?_,
    by decide,
    by
      rw [calculateTokens_sum _ (by decide) (by decide)]
      show jsAdd (.finite 1) (.finite 2) = .finite 3
      norm_num [jsAdd],
    by
      rw [calculateTokens_sum _ (by decide) (by decide)]
      show jsAdd (.finite 1) (.finite 2) = .finite 3
      norm_num [jsAdd],
    by
      rw [calculateTokens_sum _ (by decide) (by decide)]
      show jsAdd (.finite 1) (.finite 2) = .finite 3
      norm_num [jsAdd]⟩
  · intro l
    rw [calculateTokens]
    simp [JSVal.truthy, JSVal.isObjectType, JSVal.getField, jsAdd]
  · intro b
    cases hb : (JSVal.bool b).truthy with
    | false => exact calculateTokens_not_object _ (by simp [hb])
    | true => rw [calculateTokens]; simp [JSVal.isObjectType]
  · intro n
    exact calculateTokens_not_object _ (by simp [JSVal.isObjectType])
  · intro s
    exact calculateTokens_not_object _ (by simp [JSVal.isObjectType])

/-- Witness for C10: the edge-case contract applied at a usage value whose
`total_tokens` is an infinity, discharging each hypothesis. -/
theorem calculateTokens_edge_cases_witness :
    calculateTokens (.obj [("total_tokens", .num .posInf),
        ("input_tokens", .num (.finite 4))]) =
      jsAdd (numOrZero ((JSVal.obj [("total_tokens", .num .posInf),
          ("input_tokens", .num (.finite 4))]).getField "input_tokens"))
        (numOrZero ((JSVal.obj [("total_tokens", .num .posInf),
          ("input_tokens", .num (.finite 4))]).getField "output_tokens")) := by
  exact calculateTokens_edge_cases.1 _ (by decide) (by simp [JSVal.getField]) (by decide)

lemma getLastD_cons (u acc : JSVal) (l : List JSVal) :
    ((u :: l).getLast?).getD acc = (l.getLast?).getD u := by
  induction l generalizing u acc with
  | nil => rfl
  | cons v vs ih =>
    rw [List.getLast?_cons_cons]
    rw [ih v acc, ih v u]

lemma extractUsageGo_eq_getLast (recs : List (List Char)) (acc : JSVal) :
    extractUsageGo recs acc =
      ((recs.filterMap recordContribution).getLast?).getD acc := by
  induction recs generalizing acc with
  | nil => simp [extractUsageGo]
  | cons r rest ih =>
    cases hc : recordContribution r with
    | none => simp [extractUsageGo, hc, ih]
    | some u => simp [extractUsageGo, hc, ih, getLastD_cons]

set_option maxRecDepth 200000 in
/-- Claim C3 (amended): the usage the SSE Reassembler derives is the
contribution of the LAST record, in stream order, among `message_delta`
records with a truthy `usage` and `message_start` records with a truthy
`message.usage` — not of an incremental record in preference to a later
stream-start record; `null` when no record contributes.  For real streams,
where the stream-start record precedes every incremental one, the
incremental usage therefore wins, as in the documented example: a
`message_start` carrying `{input_tokens: 3, output_tokens: 0}` followed by
a `message_delta` carrying `{input_tokens: 3, output_tokens: 7}` derives
the latter. -/
theorem extractUsage_last_contribution_wins :
    (∀ sse : String,
      extractUsageFromSSE sse =
        (((splitOnList ['\n', '\n'] sse.data).filterMap
          recordContribution).getLast?).getD .null) ∧
    extractUsageFromSSE
        ("event: message_start\ndata: \x7b\"message\": \x7b\"usage\": \x7b\"input_tokens\": 3, \"output_tokens\": 0\x7d\x7d\x7d\n\nevent: message_delta\ndata: \x7b\"usage\": \x7b\"input_tokens\": 3, \"output_tokens\": 7\x7d\x7d") =
      .obj [("input_tokens", .num (.finite 3)), ("output_tokens", .num (.finite 7))] := by
  refine ⟨fun sse => extractUsageGo_eq_getLast _ _, ?_⟩
  with_unfolding_all rfl

/-- Claim C8 (amended): the best-effort structured final object is
obtained from the last trimmed nonempty line that is delimited by braces —
its JSON parse when that parse succeeds, and `null` when it fails (even if
an earlier line is a complete JSON object, see the counterexample) or when
no brace-delimited line exists; the derivation is a total function, so it
never throws, also on truncated streams. -/
theorem parseStreaming_contract :
    (∀ s : String,
      (∀ l ∈ (splitOnList ['\n'] s.data).map trimList,
        (startsWithBrace l && endsWithBrace l) = false) →
      parseStreamingResponse s = .null) ∧
    (∀ (s : String) (l : List Char) (v : JSVal), lastBraceLine s = some l →
      jsonParseChars l = some v → parseStreamingResponse s = v) ∧
    (∀ (s : String) (l : List Char), lastBraceLine s = some l →
      jsonParseChars l = none → parseStreamingResponse s = .null) := by
  refine ⟨?_, ?_, ?_⟩
  · intro s h
    have hnone : lastBraceLine s = none := by
      simp only [lastBraceLine]
      refine List.find?_eq_none.mpr ?_
      intro l hl
      have hmem : l ∈ (splitOnList ['\n'] s.data).map trimList :=
        List.mem_of_mem_filter (List.mem_reverse.mp hl)
      simp [h l hmem]
    unfold parseStreamingResponse
    rw [hnone]
  · intro s l v h1 h2
    unfold parseStreamingResponse
    rw [h1]
    simp [h2]
  · intro s l h1 h2
    unfold parseStreamingResponse
    rw [h1]
    simp [h2]

set_option maxRecDepth 200000 in
/-- Witness for C8: the amended contract applied at concrete streams — one
whose last brace-delimited line parses, and one with no brace-delimited
line at all. -/
theorem parseStreaming_contract_witness :
    parseStreamingResponse "data: x\n\x7b\"ok\":true\x7d" =
      .obj [("ok", .bool true)] ∧
    parseStreamingResponse "data: x" = .null := by
  constructor
  · exact parseStreaming_contract.2.1 "data: x\n\x7b\"ok\":true\x7d"
      ("\x7b\"ok\":true\x7d".data) (.obj [("ok", .bool true)]) rfl rfl
  · exact parseStreaming_contract.1 "data: x" (by decide)

set_option maxRecDepth 200000 in
/-- Counterexample for C8 as stated: in a stream whose first line is a
complete JSON object and whose last brace-delimited line is not valid
JSON, the derivation yields `null`, not the last syntactically complete
JSON object appearing on its own line — only the last brace-delimited
line is ever tried. -/
theorem parseStreaming_not_last_complete_object :
    parseStreamingResponse "\x7b\"a\":1\x7d\n\x7boops\x7d" = .null ∧
    jsonParseChars "\x7b\"a\":1\x7d".data = some (.obj [("a", .num (.finite 1))]) ∧
    jsonParseChars "\x7boops\x7d".data = none ∧
    JSVal.null ≠ JSVal.obj [("a", .num (.finite 1))] := by
  exact ⟨by with_unfolding_all rfl, rfl, rfl, by simp⟩

/-- Claim C9 (amended): reading traces back never fails — every stored
body flows through `safeParseJSON`, and a nonempty stored body text that
cannot be parsed back into structured form is returned raw and unmodified
(an empty stored body, being falsy, is read back as `null`, see the
counterexample). -/
theorem traces_read_falls_back_to_raw :
    (∀ s : String, s ≠ "" → jsonParseChars s.data = none →
      safeParseJSON (.str s) = .str s) ∧
    (∀ (db : DB) (sessionId : Option String),
      (getTraces db sessionId).map (fun t => t.body) =
        (selectTraces db sessionId).map (fun r => safeParseJSON r.body)) ∧
    (∀ (db : DB) (sessionId : Option String),
      (getTraces db sessionId).map (fun t => t.response.map (fun r => r.body)) =
        (selectTraces db sessionId).map (fun r =>
          ((db.responses.filter (fun x => x.request_id == r.id)).head?).map
            (fun x => safeParseJSON x.body))) := by
  refine ⟨?_, ?_, ?_⟩
  · intro s hne hparse
    have hb : (JSVal.str s).truthy = true := by simp [JSVal.truthy, hne]
    cases hev : List.isPrefixOf "event:".data (trimList s.data) with
    | true => simp [safeParseJSON, hb, hev]
    | false => simp [safeParseJSON, hb, hev, hparse]
  · intro db sid
    simp [getTraces]
  · intro db sid
    simp only [getTraces, List.map_map]
    refine List.map_congr_left ?_
    intro a _
    simp only [Function.comp_apply]
    cases hf : (db.responses.filter (fun r => r.request_id == a.id)).head? <;>
      simp [hf]

/-- Witness for C9: the amended contract applied at a concrete unparseable
stored body, discharging each hypothesis. -/
theorem traces_read_falls_back_to_raw_witness :
    safeParseJSON (.str "not json") = .str "not json" := by
  exact traces_read_falls_back_to_raw.1 "not json" (by decide) rfl

/-- Counterexample for C9 as stated: the empty string is a stored body
that cannot be parsed back into structured form, yet the read returns
`null` rather than the raw stored text (the falsy-input guard precedes the
string handling). -/
theorem safeParseJSON_empty_body_not_raw :
    jsonParseChars "".data = none ∧
    safeParseJSON (.str "") = .null ∧
    JSVal.null ≠ JSVal.str "" := by
  exact ⟨rfl, rfl, by simp⟩

lemma toolCallsGo_no_response_events (rid : String) (now : Int)
    (failIdx : Option Nat) (blocks : List JSVal) :
    ∀ k : Nat, ((toolCallsGo rid now failIdx k blocks).2.1.filter
      (fun e => e.type == "response")) = [] := by
  induction blocks with
  | nil => intro k; simp [toolCallsGo]
  | cons c rest ih =>
    intro k
    cases h1 : (c.getField "type").isStr "tool_use" with
    | false => simp [toolCallsGo, h1, ih]
    | true =>
      cases h2 : failIdx == some k with
      | true => simp [toolCallsGo, h1, h2]
      | false => simp [toolCallsGo, h1, h2, ih]

lemma extractTools_no_response_events (rid : String) (rd : JSVal)
    (failIdx : Option Nat) (now : Int) :
    ((extractAndStoreToolCalls rid rd failIdx now).2.1.filter
      (fun e => e.type == "response")) = [] := by
  unfold extractAndStoreToolCalls
  cases rd.getField "content" <;> simp [toolCallsGo_no_response_events]

/-- Claim C2: for every well-formed buffered (non-streaming) call with no
persistence failure, exactly one response row is persisted and its
`tokens_used` equals `calculateTokens` of the upstream response's usage
field; exactly one `response` event is broadcast and the structured
response it carries equals the JSON body returned by upstream, which is
also the body replied to the caller with upstream's status. -/
theorem buffered_call_tokens_and_broadcast :
    ∀ (reqHeaders : List (String × String)) (body : JSVal) (upstreamStatus : Int)
      (upstreamJson : JSVal) (chunks : List String)
      (envApiKey requestId responseId sessionId : String)
      (timestamp respTimestamp latency : Int),
    (body.getField "stream").truthy = false →
    let o := postMessages DbFailures.none reqHeaders body upstreamStatus
      upstreamJson chunks envApiKey requestId responseId sessionId timestamp
      respTimestamp latency
    (o.responseRows.map (fun r => r.tokens_used)) =
      [calculateTokens (upstreamJson.getField "usage")] ∧
    (o.events.filter (fun e => e.type == "response")) =
      [⟨"response",
        .obj [("requestId", .str requestId), ("response", upstreamJson),
          ("latency", .num (.finite (latency : Rat))),
          ("tokensUsedTotal", .num (calculateTokens (upstreamJson.getField "usage")))]⟩] ∧
    ((JSVal.obj [("requestId", .str requestId), ("response", upstreamJson),
        ("latency", .num (.finite (latency : Rat))),
        ("tokensUsedTotal",
          .num (calculateTokens (upstreamJson.getField "usage")))]).getField
      "response") = upstreamJson ∧
    o.clientStatus = upstreamStatus ∧
    o.clientBody = upstreamJson := by
  intro reqHeaders body upstreamStatus upstreamJson chunks envApiKey requestId
    responseId sessionId timestamp respTimestamp latency h
  refine ⟨?_, ?_, rfl, ?_, ?_⟩ <;>
    simp [postMessages, h, handleRegularRequest, DbFailures.none, requestEvent,
      List.filter_append, extractTools_no_response_events,
      show ("request" == "response") = false from rfl,
      show ("response" == "response") = true from rfl]

/-- Witness for C2: the buffered-path contract applied at a concrete call,
discharging the non-streaming hypothesis. -/
theorem buffered_call_tokens_and_broadcast_witness :
    ((postMessages DbFailures.none [] (.obj [("model", .str "m")]) 200
        (.obj [("usage", .obj [("input_tokens", .num (.finite 2)),
          ("output_tokens", .num (.finite 3))])]) [] "k" "r1" "r2" "s1" 1 2
        3).responseRows.map (fun r => r.tokens_used)) =
      [calculateTokens ((JSVal.obj [("usage", .obj [("input_tokens", .num (.finite 2)),
        ("output_tokens", .num (.finite 3))])]).getField "usage")] := by
  exact (buffered_call_tokens_and_broadcast [] (.obj [("model", .str "m")]) 200
    (.obj [("usage", .obj [("input_tokens", .num (.finite 2)),
      ("output_tokens", .num (.finite 3))])]) [] "k" "r1" "r2" "s1" 1 2 3
    (by decide)).1

/-- Claim C4: the caller's headers — in particular the `x-api-key` header —
never reach the trace store or any broadcast event: the persisted rows and
the broadcast events of a captured call are identical for any two callers
differing only in headers (the headers flow only into the upstream
forwarding), the persisted request row stores null in its headers column,
and the first broadcast event is the `request` event built from the
identifier, the timestamp and body fields only. -/
theorem api_key_not_stored_not_broadcast :
    ∀ (fail : DbFailures) (headers1 headers2 : List (String × String))
      (body : JSVal) (upstreamStatus : Int) (upstreamJson : JSVal)
      (chunks : List String) (envApiKey requestId responseId sessionId : String)
      (timestamp respTimestamp latency : Int),
    let o1 := postMessages fail headers1 body upstreamStatus upstreamJson chunks
      envApiKey requestId responseId sessionId timestamp respTimestamp latency
    let o2 := postMessages fail headers2 body upstreamStatus upstreamJson chunks
      envApiKey requestId responseId sessionId timestamp respTimestamp latency
    o1.requestRows = o2.requestRows ∧
    o1.responseRows = o2.responseRows ∧
    o1.toolRows = o2.toolRows ∧
    o1.events = o2.events ∧
    o1.requestRows.map (fun r => r.headers) =
      o1.requestRows.map (fun _ => JSVal.null) ∧
    o1.events.head? = some (requestEvent requestId timestamp body) := by
  intro fail headers1 headers2 body upstreamStatus upstreamJson chunks envApiKey
    requestId responseId sessionId timestamp respTimestamp latency
  cases hs : (body.getField "stream").truthy <;>
    cases hf : fail.requestInsertFails <;>
      simp [postMessages, hs, hf]

/-- Claim C5: a failing trace-store write — request insert, response
insert, or any tool-call insert — is swallowed: the reply seen by the
caller (status, JSON body, streamed chunks and stream end) and the headers
forwarded upstream are identical to those of the failure-free run, and the
`request` event is still broadcast first even when persisting the request
row fails. -/
theorem persistence_failures_swallowed :
    ∀ (fail : DbFailures) (reqHeaders : List (String × String)) (body : JSVal)
      (upstreamStatus : Int) (upstreamJson : JSVal) (chunks : List String)
      (envApiKey requestId responseId sessionId : String)
      (timestamp respTimestamp latency : Int),
    let o := postMessages fail reqHeaders body upstreamStatus upstreamJson chunks
      envApiKey requestId responseId sessionId timestamp respTimestamp latency
    let o0 := postMessages DbFailures.none reqHeaders body upstreamStatus
      upstreamJson chunks envApiKey requestId responseId sessionId timestamp
      respTimestamp latency
    o.clientStatus = o0.clientStatus ∧
    o.clientBody = o0.clientBody ∧
    o.clientChunks = o0.clientChunks ∧
    o.clientEnded = o0.clientEnded ∧
    o.forwardedHeaders = o0.forwardedHeaders ∧
    o.events.head? = some (requestEvent requestId timestamp body) := by
  intro fail reqHeaders body upstreamStatus upstreamJson chunks envApiKey
    requestId responseId sessionId timestamp respTimestamp latency
  obtain ⟨rf, sf, tf⟩ := fail
  cases hs : (body.getField "stream").truthy <;> cases rf <;> cases sf <;>
    simp [postMessages, hs, DbFailures.none, handleStreamingRequest,
      handleRegularRequest]

/-- Claim C6: the bulk clear deletes all rows of the four tables inside
one transaction and then creates a fresh session: without failure the
store afterwards holds exactly the fresh session and nothing else, with
success reported and a `cleared` event broadcast; if any step up to and
including the COMMIT throws, the catch branch's ROLLBACK leaves every
pre-existing row in place — no partial deletion is visible — no `cleared`
event is broadcast, and the failure is reported to the caller of the
clear operation with status 500. -/
theorem clear_all_or_nothing :
    ∀ (db : DB) (newSessionId : String) (now : Int),
    clearHandler db Option.none newSessionId now =
      ⟨⟨[⟨newSessionId, now⟩], [], [], []⟩, 200, true, [⟨"cleared", .undef⟩],
        some newSessionId⟩ ∧
    (∀ step : ClearStep, step.inDeletePhase = true →
      clearHandler db (some step) newSessionId now =
        ⟨db, 500, false, [], Option.none⟩) := by
  intro db newSessionId now
  constructor
  · simp [clearHandler]
  · intro step h
    cases step <;> simp_all [clearHandler, ClearStep.inDeletePhase]

/-- Witness for C6: the clear contract applied at a concrete store and a
failure in the middle of the delete sequence, discharging the hypothesis
that the failing step lies in the delete phase. -/
theorem clear_all_or_nothing_witness :
    clearHandler
        ⟨[⟨"s0", 0⟩], [⟨"q", "s0", 1, "POST", "/v1/messages", .null, .null, 0⟩],
          [], []⟩ (some .delRequests) "s1" 5 =
      ⟨⟨[⟨"s0", 0⟩], [⟨"q", "s0", 1, "POST", "/v1/messages", .null, .null, 0⟩],
        [], []⟩, 500, false, [], Option.none⟩ := by
  exact (clear_all_or_nothing _ "s1" 5).2 .delRequests rfl

/-- Claim C7: clear is idempotent at the interface: invoking clear on the
already-empty store left by a previous clear succeeds, rotates to a fresh
active session, broadcasts exactly one `cleared` event, and a trace query
issued afterwards (as well as one after the first clear) returns the empty
list. -/
theorem clear_idempotent_on_empty :
    ∀ (db : DB) (sid1 sid2 : String) (t1 t2 : Int),
    let r1 := clearHandler db Option.none sid1 t1
    let r2 := clearHandler r1.db Option.none sid2 t2
    r2.httpStatus = 200 ∧
    r2.bodyOk = true ∧
    r2.events = [⟨"cleared", .undef⟩] ∧
    r2.db.sessions = [⟨sid2, t2⟩] ∧
    r2.currentSessionId = some sid2 ∧
    getTraces r2.db Option.none = [] ∧
    getTraces r1.db Option.none = [] := by
  intro db sid1 sid2 t1 t2
  simp [clearHandler, getTraces, selectTraces, selectRecentRequests,
    sortByTimestampDesc]

set_option maxRecDepth 200000 in
/-- Counterexample for C3 as stated: in a stream where a usage-bearing
`message_delta` record is followed by a usage-bearing `message_start`
record, the derived usage is the `message_start` one, although an
incremental record carried usage — the scan keeps the last usage seen, it
does not prefer incremental records. -/
theorem extractUsage_delta_not_preferred :
    extractUsageFromSSE
        ("event: message_delta\ndata: \x7b\"usage\": \x7b\"output_tokens\": 7\x7d\x7d\n\nevent: message_start\ndata: \x7b\"message\": \x7b\"usage\": \x7b\"output_tokens\": 1\x7d\x7d\x7d") =
      .obj [("output_tokens", .num (.finite 1))] ∧
    (JSVal.obj [("output_tokens", .num (.finite 1))]) ≠
      .obj [("output_tokens", .num (.finite 7))] := by
  constructor
  · with_unfolding_all rfl
  · simp
